import Mathlib

/-!
Verification development for pm_agent_multi.py, a contest-form agent.

The pure logic of the program (CSV ledger bookkeeping, question
extraction, answer resolution, field mapping, fill statistics, the
per-candidate submission state machine and the orchestrating run loop)
is embedded as executable Lean definitions.  Browser-facing effects
(navigation, DOM queries, clicking, the LLM transport, the clock) are
modelled as an explicit environment value per processed candidate.

Conventions of the embedding:
- text is modelled as String / List Char; regular expressions of the
  source are compiled by hand into deterministic scanning functions,
  restricted to the ASCII whitespace class plus the Polish letters that
  actually occur in the patterns of the source;
- a CSV ledger row is a List String; the writer of the source always
  appends a 7-field row, readers skip rows shorter than 6 fields;
- the local date used for the daily quota is threaded as a parameter.
-/

/-- ASCII whitespace as matched by the regex class backslash-s of the
source (space, tab, newline, carriage return, vertical tab, form feed). -/
def isPySpace (c : Char) : Bool :=
  c = ' ' || c = '\t' || c = '\n' || c = '\r' || c = '\x0b' || c = '\x0c'

/-- Lowercasing as used by the source (str.lower / toLowerCase), covering
ASCII plus the non-ASCII uppercase letters occurring in the patterns and
keyword sets of the source. -/
def pyLowerChar (c : Char) : Char :=
  if c = 'Ą' then 'ą' else if c = 'Ć' then 'ć' else if c = 'Ę' then 'ę'
  else if c = 'Ł' then 'ł' else if c = 'Ń' then 'ń' else if c = 'Ó' then 'ó'
  else if c = 'Ś' then 'ś' else if c = 'Ź' then 'ź' else if c = 'Ż' then 'ż'
  else if c = 'Ô' then 'ô' else c.toLower

def pyLower (s : String) : String := String.mk (s.data.map pyLowerChar)

/-- Substring test on character lists; an empty needle is contained in
everything, as with the in operator of the source language. -/
def listContains (hay needle : List Char) : Bool :=
  match hay with
  | [] => needle.isEmpty
  | c :: t => needle.isPrefixOf (c :: t) || listContains t needle

/-- The membership test needle in hay of the source language. -/
def pyIn (needle hay : String) : Bool := listContains hay.data needle.data

/-- str.strip of the source: remove whitespace at both ends. -/
def pyStrip (cs : List Char) : List Char :=
  ((cs.dropWhile isPySpace).reverse.dropWhile isPySpace).reverse

/-- Line-boundary characters relevant to str.splitlines for the texts
handled here (newline, carriage return, vertical tab, form feed). -/
def isLineBreakChar (c : Char) : Bool :=
  c = '\n' || c = '\r' || c = '\x0b' || c = '\x0c'

def splitLinesGo (acc : List Char) : List Char → List (List Char)
  | [] => if acc.isEmpty then [] else [acc.reverse]
  | '\r' :: '\n' :: t => acc.reverse :: splitLinesGo [] t
  | '\r' :: t => acc.reverse :: splitLinesGo [] t
  | '\n' :: t => acc.reverse :: splitLinesGo [] t
  | '\x0b' :: t => acc.reverse :: splitLinesGo [] t
  | '\x0c' :: t => acc.reverse :: splitLinesGo [] t
  | c :: t => splitLinesGo (c :: acc) t

/-- str.splitlines of the source: no trailing empty line for a trailing
line break, and the empty string yields no lines. -/
def splitLinesPy (cs : List Char) : List (List Char) := splitLinesGo [] cs

/-- timestamp.split with separator T, first component, then strip — the
date part used by count_today_sent in the source. -/
def datePart (ts : String) : String :=
  String.mk (pyStrip (ts.data.takeWhile (fun c => c ≠ 'T')))

/-! ## Ledger bookkeeping (SENT_STATUSES, count_today_sent,
get_already_sent_urls, log_row of the source) -/

/-- SENT_STATUSES of the source. -/
def SENT_STATUSES : List String :=
  ["SENT", "SENT_TEMPLATE", "SENT_EXTRACT", "SENT_YEARS", "SENT_LLM", "SENT_UNCONFIRMED"]

/-- One appended CSV row, as written by log_row of the source:
timestamp, contest_url, article_url (empty when absent), question,
answer, status, fill_stats. -/
def mkRow (ts url : String) (art : Option String) (q a status fs : String) : List String :=
  [ts, url, art.getD "", q, a, status, fs]

/-- A row counted by count_today_sent for a given local date. -/
def todaySentRow (today : String) (r : List String) : Bool :=
  6 ≤ r.length && datePart (r.getD 0 "") == today && SENT_STATUSES.contains (r.getD 5 "")

/-- count_today_sent of the source, with the local date as a parameter
(the header row of the CSV file is not part of the modelled ledger). -/
def count_today_sent (today : String) (ledger : List (List String)) : Nat :=
  ledger.countP (todaySentRow today)

/-- A row whose status is in the sent family. -/
def sentRow (r : List String) : Bool :=
  6 ≤ r.length && SENT_STATUSES.contains (r.getD 5 "")

/-- get_already_sent_urls of the source: the contest urls of all rows
carrying a sent-family status (as a list; only membership is used). -/
def get_already_sent_urls (ledger : List (List String)) : List String :=
  (ledger.filter sentRow).map (fun r => r.getD 1 "")

/-- A sent-family row for one particular contest url. -/
def isSentRowFor (u : String) (r : List String) : Bool :=
  sentRow r && r.getD 1 "" == u

/-- Number of sent-family rows recorded for one contest url. -/
def countSentFor (u : String) (L : List (List String)) : Nat :=
  L.countP (isSentRowFor u)

/-! ## Question extractor (get_question of the source)

Rule 1 is the regex "Pytanie konkursowe:<spaces>(rest of line)", rule 2
the regex capturing from "Podpowiedź na poprzedniej stronie" to the end
of the line, rule 3 the first line containing a question mark whose
stripped length lies in the interval 5..500.  Both regexes are searched
case-insensitively at the leftmost position where they match. -/

/-- Case-insensitive literal match: if the text starts with the
(lowercase) pattern, return the rest of the text. -/
def stripCI : List Char → List Char → Option (List Char)
  | [], cs => some cs
  | _ :: _, [] => none
  | p :: ps, c :: cs => if pyLowerChar c = p then stripCI ps cs else none

/-- The regex piece backslash-s-plus: at least one whitespace character,
consumed greedily (the following literal starts with a non-space, so
maximal munch is exact here). -/
def spaces1 (cs : List Char) : Option (List Char) :=
  if (cs.takeWhile isPySpace).isEmpty then none else some (cs.dropWhile isPySpace)

/-- Match of the rule-1 regex at the current position, returning the
captured group: after the literal and the greedy whitespace, the capture
is the maximal run of non-newline characters; when only whitespace
remains, backtracking makes the capture the last non-newline whitespace
character, if any. -/
def matchPytanieAt (cs : List Char) : Option (List Char) :=
  (stripCI "pytanie".data cs).bind fun r1 =>
  (spaces1 r1).bind fun r2 =>
  (stripCI "konkursowe:".data r2).bind fun rest =>
    let r := rest.dropWhile isPySpace
    if !r.isEmpty then some (r.takeWhile (fun c => c ≠ '\n'))
    else
      match (rest.takeWhile isPySpace).reverse.find? (fun c => c ≠ '\n') with
      | some c => some [c]
      | none => none

/-- Leftmost search for the rule-1 regex. -/
def searchP1 : List Char → Option (List Char)
  | [] => none
  | c :: t =>
    match matchPytanieAt (c :: t) with
    | some g => some g
    | none => searchP1 t

/-- Match of the rule-2 regex at the current position, returning the
captured group: the original text from the match start through the end
of the line after the final literal. -/
def matchPodpAt (cs : List Char) : Option (List Char) :=
  (stripCI "podpowiedź".data cs).bind fun r1 =>
  (spaces1 r1).bind fun r2 =>
  (stripCI "na".data r2).bind fun r3 =>
  (spaces1 r3).bind fun r4 =>
  (stripCI "poprzedniej".data r4).bind fun r5 =>
  (spaces1 r5).bind fun r6 =>
  (stripCI "stronie".data r6).bind fun rest =>
    some (cs.take (cs.length - rest.length + (rest.takeWhile (fun c => c ≠ '\n')).length))

/-- Leftmost search for the rule-2 regex. -/
def searchP2 : List Char → Option (List Char)
  | [] => none
  | c :: t =>
    match matchPodpAt (c :: t) with
    | some g => some g
    | none => searchP2 t

def firstLineOf (cs : List Char) : List Char :=
  cs.takeWhile (fun c => !(isLineBreakChar c))

/-- Post-processing of a captured group in get_question: strip, then
take the first line (when nonempty) and strip again. -/
def pyFirstLineStrip (g : List Char) : List Char :=
  let q := pyStrip g
  if q.isEmpty then q else pyStrip (firstLineOf q)

/-- Rule 3 of get_question: the first line containing a question mark
whose stripped length lies in 5..500; length-violating lines with a
question mark are passed over, not returned. -/
def firstQuestionLine : List (List Char) → Option String
  | [] => none
  | l :: ls =>
    if l.contains '?' then
      let s := pyStrip l
      if 5 ≤ s.length ∧ s.length ≤ 500 then some (String.mk s) else firstQuestionLine ls
    else firstQuestionLine ls

/-- Rule 1 of get_question as a standalone function. -/
def rule1 (t : String) : Option String :=
  (searchP1 t.data).map (fun g => String.mk (pyFirstLineStrip g))

/-- Rule 2 of get_question as a standalone function. -/
def rule2 (t : String) : Option String :=
  (searchP2 t.data).map (fun g => String.mk (pyFirstLineStrip g))

/-- Rule 3 of get_question as a standalone function. -/
def rule3 (t : String) : Option String :=
  firstQuestionLine (splitLinesPy t.data)

/-- get_question of the source: empty text yields none, otherwise the
three rules are applied in priority order. -/
def get_question (t : String) : Option String :=
  if t == "" then none
  else
    match searchP1 t.data with
    | some g => some (String.mk (pyFirstLineStrip g))
    | none =>
      match searchP2 t.data with
      | some g => some (String.mk (pyFirstLineStrip g))
      | none => firstQuestionLine (splitLinesPy t.data)

/-! ## Answer resolver (resolve_year, compute_years_ago,
resolve_three_steps_fallback of the source) -/

/-- A four-digit year (18xx, 19xx or 20xx) at the head of the text, as
matched by the regex of resolve_year. -/
def fourDigitYearAt (cs : List Char) : Option Nat :=
  match cs with
  | a :: b :: c :: d :: _ =>
    if ((a = '1' && (b = '8' || b = '9')) || (a = '2' && b = '0')) && c.isDigit && d.isDigit
    then some ((a.toNat - 48) * 1000 + (b.toNat - 48) * 100 + (c.toNat - 48) * 10 + (d.toNat - 48))
    else none
  | _ => none

/-- Leftmost occurrence of a four-digit year, as found by re.search in
resolve_year of the source. -/
def leftmostYearList : List Char → Option Nat
  | [] => none
  | c :: t =>
    match fourDigitYearAt (c :: t) with
    | some y => some y
    | none => leftmostYearList t

def leftmostYear (s : String) : Option Nat := leftmostYearList s.data

/-- resolve_year of the source: the static substring table checked in
order on the lowercased question, then the leftmost four-digit year. -/
def resolve_year (question : String) : Option Nat :=
  let ql := pyLower question
  if pyIn "fantomas" ql || pyIn "fantômas" ql then some 1964
  else if pyIn "discovery channel" ql then some 1985
  else if pyIn "tanita tikaram" ql then some 1969
  else if pyIn "groteska" ql && pyIn "teatr" ql then some 1945
  else if pyIn "new york world" ql && (pyIn "krzyżów" ql || pyIn "crossword" ql) then some 1913
  else if pyIn "nie ma róży bez ognia" ql then some 1974
  else if pyIn "w labiryncie" ql && (pyIn "pierwszy" ql || pyIn "pierwszego" ql || pyIn "odcinek" ql) then some 1988
  else leftmostYear ql

/-- compute_years_ago of the source, with the current local year as a
parameter (the source reads the clock). -/
def compute_years_ago (nowYear : Int) (year : Int) : Int := nowYear - year

/-- resolve_three_steps_fallback of the source: static keyword-to-steps
templates. -/
def resolve_three_steps_fallback (question : String) : List String :=
  let ql := pyLower question
  if ["proces projektowania aplikacji", "proces projektowania oprogramowania",
      "jak wygląda proces projektowania", "software design process",
      "pierwsze trzy kroki projektowania aplikacji"].any (fun k => pyIn k ql) then
    ["Analiza wymagań (cele biznesowe, użytkownicy, zakres)",
     "Projekt rozwiązania/architektury (technologie, moduły, integracje)",
     "Makiety lub prototyp UX (przepływy, walidacja z interesariuszami)"]
  else if ["proces testowania", "jak wygląda proces testowania", "testowanie aplikacji",
           "pierwsze trzy kroki testowania", "software testing process"].any (fun k => pyIn k ql) then
    ["Plan testów i przygotowanie przypadków (zakres, kryteria wejścia/wyjścia)",
     "Testy jednostkowe i integracyjne w CI (uruchomienia automatyczne)",
     "Testy systemowe/UAT i raportowanie błędów (triage, priorytety)"]
  else if ["proces wdrażania", "wdrożenie", "deployment", "release process",
           "pierwsze kroki wdrażania"].any (fun k => pyIn k ql) then
    ["Przygotowanie środowisk i pipeline CI/CD (dev/stage/prod)",
     "Konfiguracja aplikacji, migracje bazy i zarządzanie sekretami",
     "Rollout i monitoring (canary/blue-green), plan rollbacku"]
  else if ["publikacja w sklepach", "google play", "app store", "jak opublikować aplikację",
           "release w sklepach", "dystrybucja mobilna"].any (fun k => pyIn k ql) then
    ["Zbudowanie i podpisanie pakietów (Android .aab/.apk, iOS .ipa)",
     "Przygotowanie listingów (opis, grafiki, polityka prywatności)",
     "Wysłanie do review/testów beta (TestFlight/closed track) i konfiguracja wersji"]
  else []

/-- Serialization of a step list, numbering from the given index:
the join with separator "; " of the pieces "i) step" of the source. -/
def joinStepsFrom (i : Nat) : List String → String
  | [] => ""
  | [s] => toString i ++ ") " ++ s
  | s :: rest => toString i ++ ") " ++ s ++ "; " ++ joinStepsFrom (i + 1) rest

def joinSteps (steps : List String) : String := joinStepsFrom 1 steps

/-! ## Submission confirmation (has_submission_confirmation of the
source).  The regex piece succe(ss|s) is equivalent, as a search, to
the substring succes. -/

def CONFIRM_TEXT_PATTERNS : List String :=
  ["dziękujemy", "twoje zgłoszenie zostało wysłane", "zgłoszenie przyjęte",
   "wysłano", "formularz został wysłany", "thank you", "submission received",
   "succes", "submitted"]

def CONFIRM_URL_PATTERNS : List String :=
  ["sent", "success", "dziekujemy", "wyslane", "submitted"]

/-- has_submission_confirmation of the source over the post-submission
page text and page url. -/
def has_submission_confirmation (txt url : String) : Bool :=
  CONFIRM_TEXT_PATTERNS.any (fun p => pyIn p (pyLower txt)) ||
  CONFIRM_URL_PATTERNS.any (fun p => pyIn p (pyLower url))

/-! ## Field mapper (scan_fields of the source)

One Control models one element returned by the DOM query for input,
textarea and contenteditable elements, with its attributes and the
DOM-derived data the in-page script computes (visibility, associated
label text — already lowercase in the source script — and the built
selector). -/

structure Control where
  tag : String
  typeAttr : String
  nameAttr : String
  idAttr : String
  ph : String
  aria : String
  lab : String
  contenteditable : Bool
  visible : Bool
  disabledAttr : Bool
  readonlyAttr : Bool
  sel : String
  deriving DecidableEq

/-- The record pushed onto the all inventory by scan_fields (attribute
values lowercased). -/
structure FieldRec where
  sel : String
  tag : String
  type : String
  name : String
  id : String
  ph : String
  aria : String
  lab : String
  deriving DecidableEq

/-- The result object of scan_fields. -/
structure ScanOut where
  imie : Option String
  nazwisko : Option String
  email : Option String
  miasto : Option String
  odp : Option String
  all : List FieldRec
  deriving DecidableEq

def kwImie : List String := ["imię", "imie", "first name", "firstname"]
def kwNazwisko : List String := ["nazwisko", "last name", "lastname"]
def kwEmail : List String := ["email", "e-mail", "adress e-mail", "adres e-mail", "mail"]
def kwMiasto : List String := ["miasto", "city"]
def kwOdp : List String := ["twoja odpowiedź", "odpowiedź", "answer", "treść odpowiedzi"]

/-- anyMatch of the in-page script: nonempty text containing one of the
keywords. -/
def anyMatch (text : String) (arr : List String) : Bool :=
  !(text == "") && arr.any (fun k => pyIn k text)

/-- A control skipped by neither the visibility check nor the
hidden/disabled/readonly selector check of the in-page script. -/
def ctrlPasses (c : Control) : Bool :=
  c.visible && !((c.tag == "input" && pyLower c.typeAttr == "hidden") ||
                 ((c.tag == "input" || c.tag == "textarea") && (c.disabledAttr || c.readonlyAttr)))

/-- The inventory record for a control: attributes lowercased as in the
in-page script. -/
def toFieldRec (c : Control) : FieldRec :=
  ⟨c.sel, c.tag, pyLower c.typeAttr, pyLower c.nameAttr, pyLower c.idAttr,
   pyLower c.ph, pyLower c.aria, c.lab⟩

/-- Keyword condition for the first-name role. -/
def condImieKw (r : FieldRec) : Bool :=
  anyMatch r.name kwImie || anyMatch r.id kwImie || anyMatch r.ph kwImie ||
  anyMatch r.aria kwImie || anyMatch r.lab kwImie

/-- Keyword condition for the last-name role. -/
def condNazwKw (r : FieldRec) : Bool :=
  anyMatch r.name kwNazwisko || anyMatch r.id kwNazwisko || anyMatch r.ph kwNazwisko ||
  anyMatch r.aria kwNazwisko || anyMatch r.lab kwNazwisko

/-- Keyword condition for the email role. -/
def condEmailKw (r : FieldRec) : Bool :=
  anyMatch r.name kwEmail || anyMatch r.id kwEmail || anyMatch r.ph kwEmail ||
  anyMatch r.aria kwEmail || anyMatch r.lab kwEmail

/-- Keyword condition for the city role. -/
def condMiastoKw (r : FieldRec) : Bool :=
  anyMatch r.name kwMiasto || anyMatch r.id kwMiasto || anyMatch r.ph kwMiasto ||
  anyMatch r.aria kwMiasto || anyMatch r.lab kwMiasto

/-- Keyword condition for the answer role. -/
def condOdpKw (r : FieldRec) : Bool :=
  anyMatch r.name kwOdp || anyMatch r.id kwOdp || anyMatch r.ph kwOdp ||
  anyMatch r.aria kwOdp || anyMatch r.lab kwOdp

/-- One iteration of the element loop of scan_fields, in the order of
the source: push onto the inventory, email by type, answer by tag or
contenteditable, then the five keyword matches, each only when the role
is still unassigned. -/
def scanStep (st : ScanOut) (c : Control) : ScanOut :=
  if ctrlPasses c then
    let r := toFieldRec c
    let st1 := { st with all := st.all ++ [r] }
    let st2 := if st1.email.isNone && r.type == "email" then { st1 with email := some r.sel } else st1
    let st3 := if st2.odp.isNone && (r.tag == "textarea" || c.contenteditable) then { st2 with odp := some r.sel } else st2
    let st4 := if st3.imie.isNone && condImieKw r then { st3 with imie := some r.sel } else st3
    let st5 := if st4.nazwisko.isNone && condNazwKw r then { st4 with nazwisko := some r.sel } else st4
    let st6 := if st5.miasto.isNone && condMiastoKw r then { st5 with miasto := some r.sel } else st5
    let st7 := if st6.email.isNone && condEmailKw r then { st6 with email := some r.sel } else st6
    if st7.odp.isNone && condOdpKw r then { st7 with odp := some r.sel } else st7
  else st

def emptyScan : ScanOut := ⟨none, none, none, none, none, []⟩

/-- A record counted as a text input by the residual heuristic of
scan_fields: an input whose type is text or empty. -/
def isTextRec (r : FieldRec) : Bool :=
  r.tag == "input" && (r.type == "text" || r.type == "")

/-- The residual heuristics of scan_fields, applied to the loop result:
first and second text input for the name roles, email-typed control for
the email role, first textarea for the answer role, each only when the
role is still unassigned. -/
def scanResidual (o : ScanOut) : ScanOut :=
  let textInputs := o.all.filter isTextRec
  let o1 := if o.imie.isNone && !textInputs.isEmpty then
              { o with imie := textInputs.head?.map FieldRec.sel } else o
  let o2 := if o1.nazwisko.isNone && 1 < textInputs.length then
              { o1 with nazwisko := textInputs[1]?.map FieldRec.sel } else o1
  let o3 := if o2.email.isNone then
              match o2.all.find? (fun r => r.type == "email") with
              | some r => { o2 with email := some r.sel }
              | none => o2
            else o2
  if o3.odp.isNone then
    match o3.all.find? (fun r => r.tag == "textarea") with
    | some r => { o3 with odp := some r.sel }
    | none => o3
  else o3

/-- scan_fields of the source: the element loop followed by the residual
heuristics. -/
def scanFields (cs : List Control) : ScanOut :=
  scanResidual (cs.foldl scanStep emptyScan)

/-! ## Fill phase (the mapping-driven fill block of run in the source,
and the fill_stats string it records) -/

/-- Truthiness of an optional selector in the source: present and
nonempty. -/
def optTruthy (o : Option String) : Bool := !((o.getD "") == "")

def squote : String := String.singleton (Char.ofNat 39)
def lbrace : String := String.singleton (Char.ofNat 123)
def rbrace : String := String.singleton (Char.ofNat 125)

def pyBool (b : Bool) : String := if b then "True" else "False"

/-- The str of the fill-status dict of the source, in insertion order
imie, nazwisko, email, miasto, odp. -/
def fillStatsStr (i n e m o : Bool) : String :=
  lbrace ++ squote ++ "imie" ++ squote ++ ": " ++ pyBool i ++ ", " ++
  squote ++ "nazwisko" ++ squote ++ ": " ++ pyBool n ++ ", " ++
  squote ++ "email" ++ squote ++ ": " ++ pyBool e ++ ", " ++
  squote ++ "miasto" ++ squote ++ ": " ++ pyBool m ++ ", " ++
  squote ++ "odp" ++ squote ++ ": " ++ pyBool o ++ rbrace

/-- Participant identity and run settings (config.json plus CLI flags of
the source); settings without any effect on the ledger or the recorded
statuses (headless mode, captcha mode, artifact saving, page limits) are
not modelled. -/
structure Config where
  maxContests : Nat
  maxDaily : Nat
  interactive : Bool
  dryRun : Bool
  llmEnabled : Bool
  llmProvider : String
  llmApiKey : String
  imie : String
  nazwisko : String
  email : String
  miasto : String
  seedForms : List String

/-- The browser-facing environment of one candidate: everything the
source obtains from the page, the clock or the network while processing
that candidate.  exc models an unclassified exception raised inside the
per-candidate try block (before question extraction). -/
structure BrowserOutcome where
  ts : String
  navOk : Bool
  expired : Bool
  exc : Option String
  pageText : String
  extractedSteps : List String
  llmAnswer : Option String
  manualAnswer : Option String
  controls : List Control
  scanOk : Bool
  fillOk : String → Bool
  submitClicked : Bool
  postText : String
  postUrl : String

/-- ask_llm of the source: none unless enabled with a nonempty api key
and a known provider; the transport result is the environment value. -/
def ask_llm (cfg : Config) (out : BrowserOutcome) : Option String :=
  if cfg.llmEnabled && !(cfg.llmApiKey == "") then
    if cfg.llmProvider == "gemini" || cfg.llmProvider == "openai" then out.llmAnswer else none
  else none

/-- The manual / no-answer tail of the resolver chain in run: with
interactive mode the operator-entered field value (empty or failing
reads fall back to the unknown marker) and no strategy tag; otherwise
the unknown marker with the MANUAL tag. -/
def manualBranch (cfg : Config) (out : BrowserOutcome) : String × String :=
  if cfg.interactive then
    (match out.manualAnswer with
     | some s => if s == "" then "??" else s
     | none => "??", "")
  else ("??", "MANUAL")

/-- The answer-resolution block of run: year arithmetic, article step
extraction (only with a source article and the previous-page hint in the
question), template fallback, LLM, manual.  Returns the answer string
and the extraction tag. -/
def resolve_answer (cfg : Config) (nowYear : Int) (out : BrowserOutcome)
    (art : Option String) (q : String) : String × String :=
  match resolve_year q with
  | some y => (toString (compute_years_ago nowYear y), "YEARS")
  | none =>
    let steps1 := if !(art.getD "" == "") && pyIn "poprzedniej stronie" (pyLower q) then
                    out.extractedSteps else []
    let sp := if !steps1.isEmpty then (steps1, "EXTRACT_STEPS")
              else
                let steps2 := resolve_three_steps_fallback q
                if !steps2.isEmpty then (steps2, "TEMPLATE_STEPS") else ([], "")
    if !sp.1.isEmpty then (joinSteps sp.1, sp.2)
    else
      match ask_llm cfg out with
      | some s => if s == "" then manualBranch cfg out else (s, "LLM")
      | none => manualBranch cfg out

/-- The status derived in run from the extraction tag when the submit
click succeeded and a confirmation signal was found. -/
def submit_status (extraction : String) : String :=
  if extraction == "TEMPLATE_STEPS" then "SENT_TEMPLATE"
  else if extraction == "EXTRACT_STEPS" then "SENT_EXTRACT"
  else if extraction == "YEARS" then "SENT_YEARS"
  else if extraction == "LLM" then "SENT_LLM"
  else "SENT"

/-- The fill block of run: each role is attempted independently whenever
its selector is truthy; the fill_stats string reports per-role presence
and fill success.  Also returns the attempted (selector, value) pairs in
source order. -/
def fill_phase (m : ScanOut) (fillOk : String → Bool) (cfg : Config) (a : String) :
    String × List (String × String) :=
  let okImie := optTruthy m.imie && fillOk (m.imie.getD "")
  let okNazw := optTruthy m.nazwisko && fillOk (m.nazwisko.getD "")
  let okMail := optTruthy m.email && fillOk (m.email.getD "")
  let okCity := optTruthy m.miasto && fillOk (m.miasto.getD "")
  let okAns := optTruthy m.odp && fillOk (m.odp.getD "")
  let attempts :=
    (if optTruthy m.imie then [(m.imie.getD "", cfg.imie)] else []) ++
    (if optTruthy m.nazwisko then [(m.nazwisko.getD "", cfg.nazwisko)] else []) ++
    (if optTruthy m.email then [(m.email.getD "", cfg.email)] else []) ++
    (if optTruthy m.miasto then [(m.miasto.getD "", cfg.miasto)] else []) ++
    (if optTruthy m.odp then [(m.odp.getD "", a)] else [])
  (fillStatsStr okImie okNazw okMail okCity okAns, attempts)

/-- Processing of one candidate past the daily-limit gate, following the
try / except / finally structure of run.  Returns the rows appended to
the ledger for this candidate, whether a submit click was attempted, and
the fill attempts made.  The expired exit appends two rows: the explicit
log_row call of that branch, and — because continue inside try still
runs finally — the log_row call of the finally handler. -/
def process_candidate (cfg : Config) (nowYear : Int) (out : BrowserOutcome)
    (url : String) (art : Option String) :
    List (List String) × Bool × List (String × String) :=
  if !out.navOk then
    ([mkRow out.ts url art "" "??" "ERROR:NavigationFailed" ""], false, [])
  else
    match out.exc with
    | some m => ([mkRow out.ts url art "" "??" ("ERROR:" ++ m) ""], false, [])
    | none =>
      if out.expired then
        ([mkRow out.ts url art "" "" "SKIPPED_EXPIRED" "",
          mkRow out.ts url art "" "??" "SKIPPED_EXPIRED" ""], false, [])
      else
        let q := (get_question out.pageText).getD ""
        let ae := resolve_answer cfg nowYear out art q
        let ff := if out.scanOk then fill_phase (scanFields out.controls) out.fillOk cfg ae.1
                  else ("", [])
        let status :=
          if cfg.dryRun then "DRY_FILLED"
          else if out.submitClicked then
            if has_submission_confirmation out.postText out.postUrl then submit_status ae.2
            else "SENT_UNCONFIRMED"
          else "NOT_SENT"
        ([mkRow out.ts url art q ae.1 status ff.1], !cfg.dryRun, ff.2)

/-- Per-candidate observable record of one loop iteration of run. -/
structure CandTrace where
  url : String
  art : Option String
  rows : List (List String)
  submitAttempted : Bool
  fillAttempts : List (String × String)
  deriving DecidableEq

/-- The candidate loop of run: before each candidate the daily count is
re-derived from the current ledger; at or above the limit one
SKIPPED_DAILY_LIMIT row is appended and nothing else happens for that
candidate. -/
def runLoop (cfg : Config) (nowYear : Int) (today : String) (env : Nat → BrowserOutcome) :
    Nat → List (List String) → List (String × Option String) →
    List (List String) × List CandTrace
  | _, ledger, [] => (ledger, [])
  | i, ledger, (url, art) :: rest =>
    if cfg.maxDaily ≤ count_today_sent today ledger then
      let row := mkRow (env i).ts url art "" "" "SKIPPED_DAILY_LIMIT" ""
      let nxt := runLoop cfg nowYear today env (i + 1) (ledger ++ [row]) rest
      (nxt.1, ⟨url, art, [row], false, []⟩ :: nxt.2)
    else
      let pr := process_candidate cfg nowYear (env i) url art
      let nxt := runLoop cfg nowYear today env (i + 1) (ledger ++ pr.1) rest
      (nxt.1, ⟨url, art, pr.1, pr.2.1, pr.2.2⟩ :: nxt.2)

/-- run of the source, starting from the collected candidate pairs: the
initial daily-limit guard, the seed-form fallback for an empty pair
list, the filter against previously sent urls, truncation to the
per-run candidate bound, then the candidate loop.  Returns the final
ledger and the per-candidate traces. -/
def run (cfg : Config) (nowYear : Int) (today : String) (ledger0 : List (List String))
    (pairs : List (String × Option String)) (env : Nat → BrowserOutcome) :
    List (List String) × List CandTrace :=
  if cfg.maxDaily ≤ count_today_sent today ledger0 then (ledger0, [])
  else
    let pairs1 := if pairs.isEmpty then cfg.seedForms.map (fun u => (u, (none : Option String)))
                  else pairs
    let pairs2 := pairs1.filter (fun p => !((get_already_sent_urls ledger0).contains p.1))
    if pairs2.isEmpty then (ledger0, [])
    else (runLoop cfg nowYear today env 0 ledger0 (pairs2.take cfg.maxContests))

/-- The per-article dedup of extract_form_pairs_from_article in the
source: keep the first pair for each form url, tracked with a seen set
local to one article. -/
def uniquePairsGo (seen : List String) : List (String × String) → List (String × String)
  | [] => []
  | (f, a) :: rest =>
    if seen.contains f then uniquePairsGo seen rest
    else (f, a) :: uniquePairsGo (f :: seen) rest

def uniquePairs (ps : List (String × String)) : List (String × String) :=
  uniquePairsGo [] ps

/-! ## Derived role conditions and concrete demonstration values -/

/-- The condition under which the element loop of scan_fields assigns
the first-name role to a control (keyword match only). -/
def passImie (c : Control) : Bool := condImieKw (toFieldRec c)

/-- The condition for the last-name role (keyword match only). -/
def passNazw (c : Control) : Bool := condNazwKw (toFieldRec c)

/-- The condition for the city role (keyword match only). -/
def passMiasto (c : Control) : Bool := condMiastoKw (toFieldRec c)

/-- The condition for the email role: the explicit type check of the
loop, or the keyword match. -/
def passEmail (c : Control) : Bool :=
  (toFieldRec c).type == "email" || condEmailKw (toFieldRec c)

/-- The condition for the answer role: textarea tag or contenteditable,
or the keyword match. -/
def passOdp (c : Control) : Bool :=
  (toFieldRec c).tag == "textarea" || c.contenteditable || condOdpKw (toFieldRec c)

/-- A configuration with the default participant identity of the source
and the LLM disabled. -/
def cfgBase : Config :=
  { maxContests := 5, maxDaily := 10, interactive := false, dryRun := false,
    llmEnabled := false, llmProvider := "gemini", llmApiKey := "",
    imie := "Marcin", nazwisko := "Kisielewski", email := "oxykisiel@gmail.com",
    miasto := "Słupsk", seedForms := [] }

/-- A browser environment in which navigation succeeds, the contest is
live, the submit click lands and the result page shows a confirmation
phrase. -/
def goodOut : BrowserOutcome :=
  { ts := "2026-10-12T10:00:00+02:00", navOk := true, expired := false, exc := none,
    pageText := "Ile to dwa plus dwa?", extractedSteps := [], llmAnswer := none,
    manualAnswer := none, controls := [], scanOk := true,
    fillOk := fun _ => true, submitClicked := true,
    postText := "Dziękujemy za zgłoszenie",
    postUrl := "https://portalmedialny.pl/konkursy/1/ok.html" }

/-- Five distinct candidate form urls for the quota scenario. -/
def pairsFive : List (String × Option String) :=
  [("https://portalmedialny.pl/konkursy/1/a.html", none),
   ("https://portalmedialny.pl/konkursy/2/b.html", none),
   ("https://portalmedialny.pl/konkursy/3/c.html", none),
   ("https://portalmedialny.pl/konkursy/4/d.html", none),
   ("https://portalmedialny.pl/konkursy/5/e.html", none)]

/-- A visible enabled control with the given tag, type attribute, name
attribute and selector. -/
def mkCtrl (tag ty nm sel : String) : Control :=
  { tag := tag, typeAttr := ty, nameAttr := nm, idAttr := "", ph := "", aria := "",
    lab := "", contenteditable := false, visible := true, disabledAttr := false,
    readonlyAttr := false, sel := sel }

/-- A small form: two keyword-free text inputs, an email-typed input and
a textarea. -/
def demoControls : List Control :=
  [mkCtrl "input" "text" "pole1" "#a", mkCtrl "input" "" "pole2" "#b",
   mkCtrl "input" "email" "m" "#c", mkCtrl "textarea" "" "t" "#d"]

/-- The condition that some entry of the static question table of
resolve_year applies: the disjunction of the seven entry guards on the
lowercased question. -/
def tableHit (q : String) : Bool :=
  let ql := pyLower q
  (pyIn "fantomas" ql || pyIn "fantômas" ql) ||
  pyIn "discovery channel" ql ||
  pyIn "tanita tikaram" ql ||
  (pyIn "groteska" ql && pyIn "teatr" ql) ||
  (pyIn "new york world" ql && (pyIn "krzyżów" ql || pyIn "crossword" ql)) ||
  pyIn "nie ma róży bez ognia" ql ||
  (pyIn "w labiryncie" ql && (pyIn "pierwszy" ql || pyIn "pierwszego" ql || pyIn "odcinek" ql))

/-! ## Helper lemmas on rows and the candidate loop -/

lemma sentRow_mkRow (ts url : String) (art : Option String) (q a st fs : String) :
    sentRow (mkRow ts url art q a st fs) = SENT_STATUSES.contains st := by
  simp [sentRow, mkRow, List.getD]

lemma todaySentRow_mkRow (today ts url : String) (art : Option String) (q a st fs : String) :
    todaySentRow today (mkRow ts url art q a st fs) =
      (datePart ts == today && SENT_STATUSES.contains st) := by
  simp [todaySentRow, mkRow, List.getD]

lemma isSentRowFor_mkRow (u ts url : String) (art : Option String) (q a st fs : String) :
    isSentRowFor u (mkRow ts url art q a st fs) =
      (SENT_STATUSES.contains st && url == u) := by
  simp [isSentRowFor, sentRow, mkRow, List.getD]

lemma process_rows_shape (cfg : Config) (ny : Int) (out : BrowserOutcome)
    (url : String) (art : Option String) :
    (∃ r, (process_candidate cfg ny out url art).1 = [r] ∧ r.getD 1 "" = url) ∨
    (process_candidate cfg ny out url art).1 =
      [mkRow out.ts url art "" "" "SKIPPED_EXPIRED" "",
       mkRow out.ts url art "" "??" "SKIPPED_EXPIRED" ""] := by
  unfold process_candidate
  by_cases hn : out.navOk
  · cases hexc : out.exc with
    | some m =>
      simp only [hn, hexc, Bool.not_true]
      exact Or.inl ⟨_, rfl, rfl⟩
    | none =>
      by_cases hx : out.expired
      · simp [hn, hexc, hx]
      · simp only [hn, hexc, hx, Bool.not_true, Bool.not_false, if_false]
        exact Or.inl ⟨_, rfl, rfl⟩
  · simp only [Bool.not_eq_true] at hn
    simp only [hn, Bool.not_false]
    exact Or.inl ⟨_, rfl, rfl⟩

lemma process_countP_sent_le (cfg : Config) (ny : Int) (out : BrowserOutcome)
    (url : String) (art : Option String) (u : String) :
    (process_candidate cfg ny out url art).1.countP (isSentRowFor u) ≤ 1 := by
  rcases process_rows_shape cfg ny out url art with ⟨r, h, _⟩ | h <;> rw [h]
  · simpa using List.countP_le_length (l := [r]) (p := isSentRowFor u)
  · have hne : "SKIPPED_EXPIRED" ∉ SENT_STATUSES := by decide
    simp [List.countP_cons, isSentRowFor_mkRow, hne]

lemma process_countP_sent_ne (cfg : Config) (ny : Int) (out : BrowserOutcome)
    (url : String) (art : Option String) (u : String) (hne : url ≠ u) :
    (process_candidate cfg ny out url art).1.countP (isSentRowFor u) = 0 := by
  rcases process_rows_shape cfg ny out url art with ⟨r, h, hu⟩ | h <;> rw [h]
  · have hu2 : r[1]?.getD "" = url := by simpa [List.getD] using hu
    have : isSentRowFor u r = false := by
      simp [isSentRowFor, hu2, hne]
    simp [List.countP_cons, this]
  · simp [List.countP_cons, isSentRowFor_mkRow, hne]

lemma process_countP_today_le (cfg : Config) (ny : Int) (out : BrowserOutcome)
    (url : String) (art : Option String) (today : String) :
    (process_candidate cfg ny out url art).1.countP (todaySentRow today) ≤ 1 := by
  rcases process_rows_shape cfg ny out url art with ⟨r, h, _⟩ | h <;> rw [h]
  · simpa using List.countP_le_length (l := [r]) (p := todaySentRow today)
  · have hne : "SKIPPED_EXPIRED" ∉ SENT_STATUSES := by decide
    simp [List.countP_cons, todaySentRow_mkRow, hne]

lemma runLoop_nil (cfg : Config) (ny : Int) (today : String) (env : Nat → BrowserOutcome)
    (i : Nat) (ledger : List (List String)) :
    runLoop cfg ny today env i ledger [] = (ledger, []) := rfl

lemma runLoop_cons (cfg : Config) (ny : Int) (today : String) (env : Nat → BrowserOutcome)
    (i : Nat) (ledger : List (List String)) (url : String) (art : Option String)
    (rest : List (String × Option String)) :
    runLoop cfg ny today env i ledger ((url, art) :: rest) =
      if cfg.maxDaily ≤ count_today_sent today ledger then
        ((runLoop cfg ny today env (i + 1)
            (ledger ++ [mkRow (env i).ts url art "" "" "SKIPPED_DAILY_LIMIT" ""]) rest).1,
         ⟨url, art, [mkRow (env i).ts url art "" "" "SKIPPED_DAILY_LIMIT" ""], false, []⟩ ::
           (runLoop cfg ny today env (i + 1)
             (ledger ++ [mkRow (env i).ts url art "" "" "SKIPPED_DAILY_LIMIT" ""]) rest).2)
      else
        ((runLoop cfg ny today env (i + 1)
            (ledger ++ (process_candidate cfg ny (env i) url art).1) rest).1,
         ⟨url, art, (process_candidate cfg ny (env i) url art).1,
           (process_candidate cfg ny (env i) url art).2.1,
           (process_candidate cfg ny (env i) url art).2.2⟩ ::
           (runLoop cfg ny today env (i + 1)
             (ledger ++ (process_candidate cfg ny (env i) url art).1) rest).2) := rfl

lemma runLoop_count_eq_of_not_mem (cfg : Config) (ny : Int) (today : String)
    (env : Nat → BrowserOutcome) (u : String) :
    ∀ (cands : List (String × Option String)) (i : Nat) (ledger : List (List String)),
      u ∉ cands.map Prod.fst →
      countSentFor u (runLoop cfg ny today env i ledger cands).1 = countSentFor u ledger := by
  intro cands
  induction cands with
  | nil => intro i ledger _; simp [runLoop_nil]
  | cons p rest ih =>
    obtain ⟨url, art⟩ := p
    intro i ledger h
    simp only [List.map_cons, List.mem_cons, not_or] at h
    obtain ⟨hne, hrest⟩ := h
    rw [runLoop_cons]
    by_cases hlim : cfg.maxDaily ≤ count_today_sent today ledger
    · rw [if_pos hlim]
      have hskip : "SKIPPED_DAILY_LIMIT" ∉ SENT_STATUSES := by decide
      rw [ih _ _ hrest]
      simp [countSentFor, List.countP_append, List.countP_cons, isSentRowFor_mkRow, hskip]
    · rw [if_neg hlim]
      rw [ih _ _ hrest]
      have h0 := process_countP_sent_ne cfg ny (env i) url art u (fun he => hne he.symm)
      simp [countSentFor, List.countP_append, h0]

lemma runLoop_count_le (cfg : Config) (ny : Int) (today : String)
    (env : Nat → BrowserOutcome) (u : String) :
    ∀ (cands : List (String × Option String)) (i : Nat) (ledger : List (List String)),
      (cands.map Prod.fst).Nodup →
      countSentFor u (runLoop cfg ny today env i ledger cands).1 ≤ countSentFor u ledger + 1 := by
  intro cands
  induction cands with
  | nil => intro i ledger _; simp [runLoop_nil]
  | cons p rest ih =>
    obtain ⟨url, art⟩ := p
    intro i ledger hnd
    simp only [List.map_cons, List.nodup_cons] at hnd
    obtain ⟨hhd, htl⟩ := hnd
    rw [runLoop_cons]
    by_cases hlim : cfg.maxDaily ≤ count_today_sent today ledger
    · rw [if_pos hlim]
      have hskip : "SKIPPED_DAILY_LIMIT" ∉ SENT_STATUSES := by decide
      have hstep : countSentFor u (ledger ++ [mkRow (env i).ts url art "" "" "SKIPPED_DAILY_LIMIT" ""]) =
          countSentFor u ledger := by
        simp [countSentFor, List.countP_append, List.countP_cons, isSentRowFor_mkRow, hskip]
      calc countSentFor u (runLoop cfg ny today env (i + 1)
              (ledger ++ [mkRow (env i).ts url art "" "" "SKIPPED_DAILY_LIMIT" ""]) rest).1
          ≤ countSentFor u (ledger ++ [mkRow (env i).ts url art "" "" "SKIPPED_DAILY_LIMIT" ""]) + 1 :=
            ih _ _ htl
        _ = countSentFor u ledger + 1 := by rw [hstep]
    · rw [if_neg hlim]
      by_cases hu : url = u
      · subst hu
        have hnm : url ∉ rest.map Prod.fst := hhd
        rw [runLoop_count_eq_of_not_mem cfg ny today env url rest _ _ hnm]
        have hle := process_countP_sent_le cfg ny (env i) url art url
        simp only [countSentFor, List.countP_append]
        omega
      · have h0 := process_countP_sent_ne cfg ny (env i) url art u hu
        have hstep : countSentFor u (ledger ++ (process_candidate cfg ny (env i) url art).1) =
            countSentFor u ledger := by
          simp [countSentFor, List.countP_append, h0]
        calc countSentFor u (runLoop cfg ny today env (i + 1)
                (ledger ++ (process_candidate cfg ny (env i) url art).1) rest).1
            ≤ countSentFor u (ledger ++ (process_candidate cfg ny (env i) url art).1) + 1 := ih _ _ htl
          _ = countSentFor u ledger + 1 := by rw [hstep]

lemma runLoop_quota (cfg : Config) (ny : Int) (today : String) (env : Nat → BrowserOutcome) :
    ∀ (cands : List (String × Option String)) (i : Nat) (ledger : List (List String)),
      count_today_sent today ledger ≤ cfg.maxDaily →
      count_today_sent today (runLoop cfg ny today env i ledger cands).1 ≤ cfg.maxDaily := by
  intro cands
  induction cands with
  | nil => intro i ledger h; simpa [runLoop_nil] using h
  | cons p rest ih =>
    obtain ⟨url, art⟩ := p
    intro i ledger h
    rw [runLoop_cons]
    by_cases hlim : cfg.maxDaily ≤ count_today_sent today ledger
    · rw [if_pos hlim]
      have hskip : "SKIPPED_DAILY_LIMIT" ∉ SENT_STATUSES := by decide
      apply ih
      simpa [count_today_sent, List.countP_append, List.countP_cons, todaySentRow_mkRow, hskip]
        using h
    · rw [if_neg hlim]
      apply ih
      have hle := process_countP_today_le cfg ny (env i) url art today
      simp only [count_today_sent, List.countP_append] at *
      omega

lemma runLoop_trace_urls (cfg : Config) (ny : Int) (today : String) (env : Nat → BrowserOutcome) :
    ∀ (cands : List (String × Option String)) (i : Nat) (ledger : List (List String)),
      (runLoop cfg ny today env i ledger cands).2.map CandTrace.url = cands.map Prod.fst := by
  intro cands
  induction cands with
  | nil => intro i ledger; simp [runLoop_nil]
  | cons p rest ih =>
    obtain ⟨url, art⟩ := p
    intro i ledger
    rw [runLoop_cons]
    by_cases hlim : cfg.maxDaily ≤ count_today_sent today ledger
    · rw [if_pos hlim]; simp [ih]
    · rw [if_neg hlim]; simp [ih]

lemma already_sent_contains_iff (u : String) (L : List (List String)) :
    (get_already_sent_urls L).contains u = true ↔ 0 < countSentFor u L := by
  constructor
  · intro h
    rw [List.contains_iff_exists_mem_beq] at h
    obtain ⟨v, hv, hbeq⟩ := h
    rw [beq_iff_eq] at hbeq
    subst hbeq
    obtain ⟨r, hr, hru⟩ := List.mem_map.mp hv
    obtain ⟨hrL, hsent⟩ := List.mem_filter.mp hr
    rw [countSentFor, List.countP_pos_iff]
    have hru2 : r[1]?.getD "" = u := by simpa [List.getD] using hru
    exact ⟨r, hrL, by simp [isSentRowFor, hsent, hru2]⟩
  · intro h
    rw [countSentFor, List.countP_pos_iff] at h
    obtain ⟨r, hrL, hp⟩ := h
    simp only [isSentRowFor, Bool.and_eq_true, beq_iff_eq] at hp
    obtain ⟨hsent, hru⟩ := hp
    rw [List.contains_iff_exists_mem_beq]
    refine ⟨u, ?_, by simp⟩
    rw [get_already_sent_urls]
    exact List.mem_map.mpr ⟨r, List.mem_filter.mpr ⟨hrL, hsent⟩, hru⟩

lemma not_mem_filtered_map (already : List String) (ps : List (String × Option String))
    (u : String) (h : already.contains u = true) :
    u ∉ (ps.filter (fun p => !(already.contains p.1))).map Prod.fst := by
  intro hm
  obtain ⟨p, hp, hpe⟩ := List.mem_map.mp hm
  obtain ⟨_, hcond⟩ := List.mem_filter.mp hp
  rw [hpe, h] at hcond
  simp at hcond

lemma uniquePairsGo_spec :
    ∀ (ps : List (String × String)) (seen : List String),
      ((uniquePairsGo seen ps).map Prod.fst).Nodup ∧
      ∀ f ∈ (uniquePairsGo seen ps).map Prod.fst, seen.contains f = false := by
  intro ps
  induction ps with
  | nil => intro seen; simp [uniquePairsGo]
  | cons p rest ih =>
    obtain ⟨f, a⟩ := p
    intro seen
    by_cases h : seen.contains f
    · rw [uniquePairsGo, if_pos h]
      exact ih seen
    · rw [uniquePairsGo, if_neg h]
      obtain ⟨ihn, ihs⟩ := ih (f :: seen)
      simp only [Bool.not_eq_true] at h
      constructor
      · rw [List.map_cons, List.nodup_cons]
        refine ⟨fun hmem => ?_, ihn⟩
        have := ihs f hmem
        simp at this
      · intro g hg
        rw [List.map_cons, List.mem_cons] at hg
        rcases hg with hg | hg
        · rw [hg]; exact h
        · have := ihs g hg
          simp only [List.contains_cons, Bool.or_eq_false_iff] at this
          exact this.2

lemma run_eq (cfg : Config) (ny : Int) (today : String) (ledger0 : List (List String))
    (pairs : List (String × Option String)) (env : Nat → BrowserOutcome) :
    run cfg ny today ledger0 pairs env =
      if cfg.maxDaily ≤ count_today_sent today ledger0 then (ledger0, [])
      else if ((if pairs.isEmpty then cfg.seedForms.map (fun v => (v, (none : Option String)))
                else pairs).filter
                (fun p => !((get_already_sent_urls ledger0).contains p.1))).isEmpty then
        (ledger0, [])
      else
        runLoop cfg ny today env 0 ledger0
          (((if pairs.isEmpty then cfg.seedForms.map (fun v => (v, (none : Option String)))
             else pairs).filter
             (fun p => !((get_already_sent_urls ledger0).contains p.1))).take cfg.maxContests) := rfl

/-- Claim C1 (code-bug evidence): on the expired exit path the code
appends two ledger rows for the one processed candidate — the explicit
SKIPPED_EXPIRED log call of that branch plus the log call of the
finally handler — contradicting the exactly-one-row invariant. -/
theorem c1_expired_exit_two_rows :
    ((run cfgBase 2026 "2026-10-12" []
        [("https://portalmedialny.pl/konkursy/7/x.html", none)]
        (fun _ => { goodOut with expired := true })).2.map
        (fun t => t.rows.map (fun r => r.getD 5 ""))) =
      [["SKIPPED_EXPIRED", "SKIPPED_EXPIRED"]] ∧
    (run cfgBase 2026 "2026-10-12" []
        [("https://portalmedialny.pl/konkursy/7/x.html", none)]
        (fun _ => { goodOut with expired := true })).1.length = 2 := by
  constructor <;> decide

/-- Claim C2 counterexample: the same form url discovered from two
different articles is processed twice in one run and receives two
sent-family ledger rows, refuting the at-most-one-sent-record claim. -/
theorem c2_duplicate_pair_two_sent_rows :
    ¬ (countSentFor "https://portalmedialny.pl/konkursy/9/k.html"
        ((run cfgBase 2026 "2026-10-12" []
          [("https://portalmedialny.pl/konkursy/9/k.html",
            some "https://portalmedialny.pl/art/1/a.html"),
           ("https://portalmedialny.pl/konkursy/9/k.html",
            some "https://portalmedialny.pl/art/2/b.html")]
          (fun _ => goodOut)).1) ≤ 1) := by decide

/-- Claim C2 (amended): a url with a sent-family record in the ledger is
filtered out before processing, is never re-attempted, and its count of
sent-family records is untouched by the run; when the candidate list of
a run carries no duplicate form urls, at most one sent-family record per
url ever exists; the per-article pair extraction deduplicates the pairs
of one article. -/
theorem c2_amended_sent_uniqueness :
    (∀ (cfg : Config) (ny : Int) (today : String) (ledger0 : List (List String))
       (pairs : List (String × Option String)) (env : Nat → BrowserOutcome) (u : String),
       pairs ≠ [] → (pairs.map Prod.fst).Nodup → countSentFor u ledger0 ≤ 1 →
       countSentFor u (run cfg ny today ledger0 pairs env).1 ≤ 1) ∧
    (∀ (cfg : Config) (ny : Int) (today : String) (ledger0 : List (List String))
       (pairs : List (String × Option String)) (env : Nat → BrowserOutcome) (u : String),
       (get_already_sent_urls ledger0).contains u = true →
       (∀ t ∈ (run cfg ny today ledger0 pairs env).2, t.url ≠ u) ∧
       countSentFor u (run cfg ny today ledger0 pairs env).1 = countSentFor u ledger0) ∧
    (∀ ps : List (String × String), ((uniquePairs ps).map Prod.fst).Nodup) := by
  refine ⟨?_, ?_, fun ps => (uniquePairsGo_spec ps []).1⟩
  · intro cfg ny today ledger0 pairs env u hne hnd hle
    rw [run_eq]
    by_cases hg : cfg.maxDaily ≤ count_today_sent today ledger0
    · rw [if_pos hg]; exact hle
    · rw [if_neg hg]
      have hpe : pairs.isEmpty = false := by
        cases pairs with
        | nil => exact absurd rfl hne
        | cons a l => rfl
      rw [hpe]
      simp only [Bool.false_eq_true, if_false]
      set P2 := pairs.filter (fun p => !((get_already_sent_urls ledger0).contains p.1)) with hP2
      by_cases hp2e : P2.isEmpty
      · rw [if_pos hp2e]; exact hle
      · rw [if_neg hp2e]
        have hsub : List.Sublist ((P2.take cfg.maxContests).map Prod.fst) (pairs.map Prod.fst) := by
          refine List.Sublist.map Prod.fst ?_
          exact (List.take_sublist _ _).trans (List.filter_sublist _)
        have hnd2 := hnd.sublist hsub
        by_cases hmem : (get_already_sent_urls ledger0).contains u
        · have hnm := not_mem_filtered_map (get_already_sent_urls ledger0) pairs u hmem
          have hnm2 : u ∉ (P2.take cfg.maxContests).map Prod.fst := by
            intro hx
            rw [List.map_take] at hx
            exact hnm (List.mem_of_mem_take hx)
          rw [runLoop_count_eq_of_not_mem cfg ny today env u _ 0 ledger0 hnm2]
          exact hle
        · have h0 : countSentFor u ledger0 = 0 := by
            by_contra hz
            exact hmem ((already_sent_contains_iff u ledger0).mpr (Nat.pos_of_ne_zero hz))
          have hb := runLoop_count_le cfg ny today env u (P2.take cfg.maxContests) 0 ledger0 hnd2
          omega
  · intro cfg ny today ledger0 pairs env u hmem
    rw [run_eq]
    by_cases hg : cfg.maxDaily ≤ count_today_sent today ledger0
    · rw [if_pos hg]; exact ⟨by simp, rfl⟩
    · rw [if_neg hg]
      set P1 := (if pairs.isEmpty then cfg.seedForms.map (fun v => (v, (none : Option String)))
                 else pairs) with hP1
      set P2 := P1.filter (fun p => !((get_already_sent_urls ledger0).contains p.1)) with hP2
      by_cases hp2e : P2.isEmpty
      · rw [if_pos hp2e]; exact ⟨by simp, rfl⟩
      · rw [if_neg hp2e]
        have hnm := not_mem_filtered_map (get_already_sent_urls ledger0) P1 u hmem
        have hnm2 : u ∉ (P2.take cfg.maxContests).map Prod.fst := by
          intro hx
          rw [hP2, List.map_take] at hx
          exact hnm (List.mem_of_mem_take hx)
        constructor
        · intro t ht hteq
          have hmm : t.url ∈ (runLoop cfg ny today env 0 ledger0 (P2.take cfg.maxContests)).2.map
              CandTrace.url := List.mem_map_of_mem CandTrace.url ht
          rw [runLoop_trace_urls] at hmm
          rw [hteq] at hmm
          exact hnm2 hmm
        · exact runLoop_count_eq_of_not_mem cfg ny today env u _ 0 ledger0 hnm2

/-- Witness for the amended C2 theorem at a concrete run. -/
theorem c2_amended_sent_uniqueness_witness :
    countSentFor "u1" ((run cfgBase 2026 "2026-10-12" [] [("u1", none), ("u2", none)]
      (fun _ => goodOut)).1) ≤ 1 :=
  c2_amended_sent_uniqueness.1 cfgBase 2026 "2026-10-12" [] [("u1", none), ("u2", none)]
    (fun _ => goodOut) "u1" (by decide) (by decide) (by decide)

/-- Claim C3: the daily quota derived from the ledger before each
candidate bounds the number of sent-family rows; in the five-candidate
scenario with a limit of three, exactly the first three candidates reach
a sent-family status and the remaining two are recorded with
SKIPPED_DAILY_LIMIT, with no fill attempt and no submit attempt. -/
theorem c3_quota_limit :
    (∀ (cfg : Config) (ny : Int) (today : String) (ledger0 : List (List String))
       (pairs : List (String × Option String)) (env : Nat → BrowserOutcome),
       count_today_sent today ledger0 ≤ cfg.maxDaily →
       count_today_sent today (run cfg ny today ledger0 pairs env).1 ≤ cfg.maxDaily) ∧
    ((run { cfgBase with maxDaily := 3 } 2026 "2026-10-12" [] pairsFive
        (fun _ => goodOut)).2.map
        (fun t => (t.rows.map (fun r => r.getD 5 ""), t.submitAttempted, t.fillAttempts)) =
      [(["SENT"], true, []), (["SENT"], true, []), (["SENT"], true, []),
       (["SKIPPED_DAILY_LIMIT"], false, []), (["SKIPPED_DAILY_LIMIT"], false, [])]) ∧
    count_today_sent "2026-10-12"
      (run { cfgBase with maxDaily := 3 } 2026 "2026-10-12" [] pairsFive
        (fun _ => goodOut)).1 = 3 := by
  refine ⟨?_, by decide, by decide⟩
  intro cfg ny today ledger0 pairs env h
  rw [run_eq]
  by_cases hg : cfg.maxDaily ≤ count_today_sent today ledger0
  · rw [if_pos hg]; exact h
  · rw [if_neg hg]
    by_cases hp2e : ((if pairs.isEmpty then cfg.seedForms.map
        (fun v => (v, (none : Option String))) else pairs).filter
        (fun p => !((get_already_sent_urls ledger0).contains p.1))).isEmpty
    · rw [if_pos hp2e]; exact h
    · rw [if_neg hp2e]
      exact runLoop_quota cfg ny today env _ 0 ledger0 h

/-- Witness for the quota bound at a concrete run. -/
theorem c3_quota_limit_witness :
    count_today_sent "2026-10-12"
      ((run cfgBase 2026 "2026-10-12" [] pairsFive (fun _ => goodOut)).1) ≤ cfgBase.maxDaily :=
  c3_quota_limit.1 cfgBase 2026 "2026-10-12" [] pairsFive (fun _ => goodOut) (by decide)

lemma resolve_year_fantomas (q : String) (h : pyIn "fantomas" (pyLower q) = true) :
    resolve_year q = some 1964 := by
  simp [resolve_year, h]

lemma process_main_row (cfg : Config) (ny : Int) (out : BrowserOutcome)
    (url : String) (art : Option String)
    (hn : out.navOk = true) (he : out.exc = none) (hx : out.expired = false) :
    (process_candidate cfg ny out url art).1 =
      [mkRow out.ts url art ((get_question out.pageText).getD "")
        (resolve_answer cfg ny out art ((get_question out.pageText).getD "")).1
        (if cfg.dryRun then "DRY_FILLED"
         else if out.submitClicked then
           if has_submission_confirmation out.postText out.postUrl then
             submit_status (resolve_answer cfg ny out art ((get_question out.pageText).getD "")).2
           else "SENT_UNCONFIRMED"
         else "NOT_SENT")
        (if out.scanOk then
           fill_phase (scanFields out.controls) out.fillOk cfg
             (resolve_answer cfg ny out art ((get_question out.pageText).getD "")).1
         else ("", [])).1] := by
  unfold process_candidate
  rw [hn, he, hx]
  rfl

/-- Claim C4: in a non-dry run, a successful submit click without a
confirmation signal records SENT_UNCONFIRMED (never a plain SENT), and a
failed submit attempt records NOT_SENT. -/
theorem c4_confirmation_classification :
    ∀ (cfg : Config) (ny : Int) (out : BrowserOutcome) (url : String) (art : Option String),
      out.navOk = true → out.exc = none → out.expired = false → cfg.dryRun = false →
      ((out.submitClicked = true →
        has_submission_confirmation out.postText out.postUrl = false →
        (process_candidate cfg ny out url art).1.map (fun r => r.getD 5 "") =
          ["SENT_UNCONFIRMED"] ∧
        (process_candidate cfg ny out url art).1.map (fun r => r.getD 5 "") ≠ ["SENT"]) ∧
       (out.submitClicked = false →
        (process_candidate cfg ny out url art).1.map (fun r => r.getD 5 "") = ["NOT_SENT"])) := by
  intro cfg ny out url art hn he hx hd
  constructor
  · intro hs hc
    rw [process_main_row cfg ny out url art hn he hx]
    rw [hd, hs, hc]
    refine ⟨by simp [mkRow, List.getD], ?_⟩
    simp [mkRow, List.getD]
  · intro hs
    rw [process_main_row cfg ny out url art hn he hx]
    rw [hd, hs]
    simp [mkRow, List.getD]

/-- Witness for C4 at a concrete environment without a confirmation
signal. -/
theorem c4_confirmation_classification_witness :
    (process_candidate cfgBase 2026
      { goodOut with postText := "Strona formularza", postUrl := "https://example.org/form" }
      "u" none).1.map (fun r => r.getD 5 "") = ["SENT_UNCONFIRMED"] :=
  ((c4_confirmation_classification cfgBase 2026
      { goodOut with postText := "Strona formularza", postUrl := "https://example.org/form" }
      "u" none rfl rfl rfl rfl).1 rfl (by decide)).1

/-- Claim C5: every question hitting an entry of the static table
resolves through the YEARS strategy to that entry's year (entries are
checked in the priority order of the source); whenever a year y is
resolved, the recorded answer is the current local year minus y and the
recorded status is SENT_YEARS, SENT_UNCONFIRMED or NOT_SENT depending on
the submission outcome — never SENT_TEMPLATE; in particular a fantomas
question with current year 2026 yields the answer 62. -/
theorem c5_years_strategy :
    (∀ q : String, pyIn "fantomas" (pyLower q) = true → resolve_year q = some 1964) ∧
    (∀ q : String, (pyIn "fantomas" (pyLower q) || pyIn "fantômas" (pyLower q)) = true →
      resolve_year q = some 1964) ∧
    (∀ q : String,
      (pyIn "fantomas" (pyLower q) || pyIn "fantômas" (pyLower q)) = false →
      pyIn "discovery channel" (pyLower q) = true →
      resolve_year q = some 1985) ∧
    (∀ q : String,
      (pyIn "fantomas" (pyLower q) || pyIn "fantômas" (pyLower q)) = false →
      pyIn "discovery channel" (pyLower q) = false →
      pyIn "tanita tikaram" (pyLower q) = true →
      resolve_year q = some 1969) ∧
    (∀ q : String,
      (pyIn "fantomas" (pyLower q) || pyIn "fantômas" (pyLower q)) = false →
      pyIn "discovery channel" (pyLower q) = false →
      pyIn "tanita tikaram" (pyLower q) = false →
      (pyIn "groteska" (pyLower q) && pyIn "teatr" (pyLower q)) = true →
      resolve_year q = some 1945) ∧
    (∀ q : String,
      (pyIn "fantomas" (pyLower q) || pyIn "fantômas" (pyLower q)) = false →
      pyIn "discovery channel" (pyLower q) = false →
      pyIn "tanita tikaram" (pyLower q) = false →
      (pyIn "groteska" (pyLower q) && pyIn "teatr" (pyLower q)) = false →
      (pyIn "new york world" (pyLower q) &&
        (pyIn "krzyżów" (pyLower q) || pyIn "crossword" (pyLower q))) = true →
      resolve_year q = some 1913) ∧
    (∀ q : String,
      (pyIn "fantomas" (pyLower q) || pyIn "fantômas" (pyLower q)) = false →
      pyIn "discovery channel" (pyLower q) = false →
      pyIn "tanita tikaram" (pyLower q) = false →
      (pyIn "groteska" (pyLower q) && pyIn "teatr" (pyLower q)) = false →
      (pyIn "new york world" (pyLower q) &&
        (pyIn "krzyżów" (pyLower q) || pyIn "crossword" (pyLower q))) = false →
      pyIn "nie ma róży bez ognia" (pyLower q) = true →
      resolve_year q = some 1974) ∧
    (∀ q : String,
      (pyIn "fantomas" (pyLower q) || pyIn "fantômas" (pyLower q)) = false →
      pyIn "discovery channel" (pyLower q) = false →
      pyIn "tanita tikaram" (pyLower q) = false →
      (pyIn "groteska" (pyLower q) && pyIn "teatr" (pyLower q)) = false →
      (pyIn "new york world" (pyLower q) &&
        (pyIn "krzyżów" (pyLower q) || pyIn "crossword" (pyLower q))) = false →
      pyIn "nie ma róży bez ognia" (pyLower q) = false →
      (pyIn "w labiryncie" (pyLower q) &&
        (pyIn "pierwszy" (pyLower q) || pyIn "pierwszego" (pyLower q) ||
         pyIn "odcinek" (pyLower q))) = true →
      resolve_year q = some 1988) ∧
    (∀ q : String, tableHit q = true → (resolve_year q).isSome = true) ∧
    (∀ (cfg : Config) (ny : Int) (out : BrowserOutcome) (url : String) (art : Option String)
       (y : Nat),
      out.navOk = true → out.exc = none → out.expired = false → cfg.dryRun = false →
      resolve_year ((get_question out.pageText).getD "") = some y →
      (process_candidate cfg ny out url art).1.map (fun r => r.getD 4 "") =
        [toString (compute_years_ago ny y)] ∧
      ((process_candidate cfg ny out url art).1.map (fun r => r.getD 5 "") = ["SENT_YEARS"] ∨
       (process_candidate cfg ny out url art).1.map (fun r => r.getD 5 "") = ["SENT_UNCONFIRMED"] ∨
       (process_candidate cfg ny out url art).1.map (fun r => r.getD 5 "") = ["NOT_SENT"]) ∧
      (process_candidate cfg ny out url art).1.map (fun r => r.getD 5 "") ≠ ["SENT_TEMPLATE"]) ∧
    (∀ (cfg : Config) (out : BrowserOutcome) (url : String) (art : Option String),
      out.navOk = true → out.exc = none → out.expired = false → cfg.dryRun = false →
      pyIn "fantomas" (pyLower ((get_question out.pageText).getD "")) = true →
      (process_candidate cfg 2026 out url art).1.map (fun r => r.getD 4 "") = ["62"] ∧
      ((process_candidate cfg 2026 out url art).1.map (fun r => r.getD 5 "") = ["SENT_YEARS"] ∨
       (process_candidate cfg 2026 out url art).1.map (fun r => r.getD 5 "") = ["SENT_UNCONFIRMED"] ∨
       (process_candidate cfg 2026 out url art).1.map (fun r => r.getD 5 "") = ["NOT_SENT"]) ∧
      (process_candidate cfg 2026 out url art).1.map (fun r => r.getD 5 "") ≠ ["SENT_TEMPLATE"]) := by
  refine ⟨resolve_year_fantomas, ?_, ?_, ?_, ?_, ?_, ?_, ?_, ?_, ?_, ?_⟩
  · intro q h1
    simp [resolve_year, h1]
  · intro q h1 h2
    simp [resolve_year, h1, h2]
  · intro q h1 h2 h3
    simp [resolve_year, h1, h2, h3]
  · intro q h1 h2 h3 h4
    simp [resolve_year, h1, h2, h3, h4]
  · intro q h1 h2 h3 h4 h5
    simp [resolve_year, h1, h2, h3, h4, h5]
  · intro q h1 h2 h3 h4 h5 h6
    simp [resolve_year, h1, h2, h3, h4, h5, h6]
  · intro q h1 h2 h3 h4 h5 h6 h7
    simp [resolve_year, h1, h2, h3, h4, h5, h6, h7]
  · intro q h
    rw [resolve_year]
    split_ifs with h1 h2 h3 h4 h5 h6 h7 <;> try rfl
    simp_all [tableHit]
  · intro cfg ny out url art y hn he hx hd hy
    have hra : resolve_answer cfg ny out art ((get_question out.pageText).getD "") =
        (toString (compute_years_ago ny y), "YEARS") := by
      rw [resolve_answer, hy]
    rw [process_main_row cfg ny out url art hn he hx, hra, hd]
    refine ⟨by simp [mkRow, List.getD], ?_, ?_⟩
    · cases hs : out.submitClicked
      · right; right; simp [mkRow, List.getD]
      · cases hc : has_submission_confirmation out.postText out.postUrl
        · right; left; simp [mkRow, List.getD]
        · left; simp [mkRow, List.getD, submit_status]
    · cases hs : out.submitClicked
      · simp [mkRow, List.getD]
      · cases hc : has_submission_confirmation out.postText out.postUrl
        · simp [mkRow, List.getD]
        · simp [mkRow, List.getD, submit_status]
  · intro cfg out url art hn he hx hd hq
    have hra : resolve_answer cfg 2026 out art ((get_question out.pageText).getD "") =
        ("62", "YEARS") := by
      rw [resolve_answer, resolve_year_fantomas _ hq]
      rfl
    rw [process_main_row cfg 2026 out url art hn he hx, hra, hd]
    refine ⟨by simp [mkRow, List.getD], ?_, ?_⟩
    · cases hs : out.submitClicked
      · right; right; simp [mkRow, List.getD]
      · cases hc : has_submission_confirmation out.postText out.postUrl
        · right; left; simp [mkRow, List.getD]
        · left; simp [mkRow, List.getD, submit_status]
    · cases hs : out.submitClicked
      · simp [mkRow, List.getD]
      · cases hc : has_submission_confirmation out.postText out.postUrl
        · simp [mkRow, List.getD]
        · simp [mkRow, List.getD, submit_status]

/-- Witness for C5 with a fantomas question and a confirmed
submission. -/
theorem c5_years_strategy_witness :
    (process_candidate cfgBase 2026
        { goodOut with pageText := "Pytanie konkursowe: W którym roku Fantomas wszedł do kin?" }
        "u" none).1.map (fun r => r.getD 4 "") = ["62"] :=
  ((c5_years_strategy.2.2.2.2.2.2.2.2.2.2 cfgBase
      { goodOut with pageText := "Pytanie konkursowe: W którym roku Fantomas wszedł do kin?" }
      "u" none rfl rfl rfl rfl (by decide))).1

/-- Claim C7 counterexample: a question that ends with the four-digit
year 1999 but contains the earlier year 1905 resolves to 1905 — the
leftmost occurrence — not to the trailing year claimed. -/
theorem c7_trailing_year_counterexample :
    resolve_year "Od 1905 do 1999" = some 1905 ∧
    resolve_year "Od 1905 do 1999" ≠ some 1999 ∧
    (resolve_answer cfgBase 2026 goodOut none "Od 1905 do 1999").1 = "121" ∧
    (resolve_answer cfgBase 2026 goodOut none "Od 1905 do 1999").1 ≠ "27" := by
  refine ⟨by decide, by decide, by decide, by decide⟩

/-- Claim C7 (amended): when no entry of the static table matches, the
resolver takes the leftmost — not necessarily trailing — four-digit year
of the lowercased question; and whenever a year is resolved, the
recorded answer is the current local year minus that year. -/
theorem c7_amended_leftmost_year :
    (∀ q : String,
      (pyIn "fantomas" (pyLower q) || pyIn "fantômas" (pyLower q)) = false →
      pyIn "discovery channel" (pyLower q) = false →
      pyIn "tanita tikaram" (pyLower q) = false →
      (pyIn "groteska" (pyLower q) && pyIn "teatr" (pyLower q)) = false →
      (pyIn "new york world" (pyLower q) &&
        (pyIn "krzyżów" (pyLower q) || pyIn "crossword" (pyLower q))) = false →
      pyIn "nie ma róży bez ognia" (pyLower q) = false →
      (pyIn "w labiryncie" (pyLower q) &&
        (pyIn "pierwszy" (pyLower q) || pyIn "pierwszego" (pyLower q) ||
         pyIn "odcinek" (pyLower q))) = false →
      resolve_year q = leftmostYear (pyLower q)) ∧
    (∀ (cfg : Config) (ny : Int) (out : BrowserOutcome) (url : String) (art : Option String)
       (y : Nat),
      out.navOk = true → out.exc = none → out.expired = false →
      resolve_year ((get_question out.pageText).getD "") = some y →
      (process_candidate cfg ny out url art).1.map (fun r => r.getD 4 "") =
        [toString (compute_years_ago ny y)]) := by
  constructor
  · intro q h1 h2 h3 h4 h5 h6 h7
    rw [resolve_year]
    simp only [h1, h2, h3, h4, h5, h6, h7, Bool.false_eq_true, if_false]
  · intro cfg ny out url art y hn he hx hy
    rw [process_main_row cfg ny out url art hn he hx]
    rw [resolve_answer, hy]
    simp [mkRow, List.getD]

/-- Witness for the amended C7 theorem on a concrete table-free
question with two years. -/
theorem c7_amended_leftmost_year_witness :
    resolve_year "Od 1905 do 1999" = leftmostYear (pyLower "Od 1905 do 1999") :=
  c7_amended_leftmost_year.1 "Od 1905 do 1999" (by decide) (by decide) (by decide)
    (by decide) (by decide) (by decide) (by decide)

/-- Claim C6: get_question applies its three rules in priority order —
the exact question-label pattern, the previous-page continuation-hint
pattern, then the first line with a question mark of stripped length in
5..500 — returns none when none of them match, and is deterministic. -/
theorem c6_question_extractor_priority :
    ∀ t : String,
      ((rule1 t).isSome = true → get_question t = rule1 t) ∧
      (rule1 t = none → (rule2 t).isSome = true → get_question t = rule2 t) ∧
      (rule1 t = none → rule2 t = none → get_question t = rule3 t) ∧
      (rule1 t = none → rule2 t = none → rule3 t = none → get_question t = none) ∧
      (∀ t2 : String, t = t2 → get_question t = get_question t2) := by
  intro t
  by_cases ht : t = ""
  · subst ht
    refine ⟨?_, ?_, ?_, ?_, fun t2 h => by rw [h]⟩
    · intro h; simp [rule1, searchP1] at h
    · intro _ h; simp [rule2, searchP2] at h
    · intro _ _; rfl
    · intro _ _ _; rfl
  · have htb : (t == "") = false := by simpa using ht
    refine ⟨?_, ?_, ?_, ?_, fun t2 h => by rw [h]⟩
    · intro h1
      rw [rule1] at h1 ⊢
      cases hs : searchP1 t.data with
      | none => rw [hs] at h1; simp at h1
      | some g => rw [get_question, htb]; simp [hs]
    · intro h1 h2
      rw [rule1] at h1
      rw [rule2] at h2 ⊢
      cases hs1 : searchP1 t.data with
      | some g => rw [hs1] at h1; simp at h1
      | none =>
        cases hs2 : searchP2 t.data with
        | none => rw [hs2] at h2; simp at h2
        | some g => rw [get_question, htb]; simp [hs1, hs2]
    · intro h1 h2
      rw [rule1] at h1
      rw [rule2] at h2
      rw [rule3]
      cases hs1 : searchP1 t.data with
      | some g => rw [hs1] at h1; simp at h1
      | none =>
        cases hs2 : searchP2 t.data with
        | some g => rw [hs2] at h2; simp at h2
        | none => rw [get_question, htb]; simp [hs1, hs2]
    · intro h1 h2 h3
      rw [rule3] at h3
      cases hs1 : searchP1 t.data with
      | some g => rw [rule1, hs1] at h1; simp at h1
      | none =>
        cases hs2 : searchP2 t.data with
        | some g => rw [rule2, hs2] at h2; simp at h2
        | none => rw [get_question, htb]; simp [hs1, hs2, h3]

/-- Witness for C6: on a plain question-mark text rules 1 and 2 fail and
get_question equals rule 3. -/
theorem c6_question_extractor_priority_witness :
    get_question "Ile masz lat?" = rule3 "Ile masz lat?" :=
  (c6_question_extractor_priority "Ile masz lat?").2.2.1 (by decide) (by decide)

/-- Claim C9: role filling is independent: with email and answer
resolved but first name, last name and city unresolved, exactly the
email and answer fields are attempted, in that order, and the fill-stats
string reports False for every unresolved role and the fill result for
each resolved role. -/
theorem c9_fill_independent_roles :
    ∀ (m : ScanOut) (fillOk : String → Bool) (cfg : Config) (a se sa : String),
      m.imie = none → m.nazwisko = none → m.miasto = none →
      m.email = some se → se ≠ "" → m.odp = some sa → sa ≠ "" →
      (fill_phase m fillOk cfg a).2 = [(se, cfg.email), (sa, a)] ∧
      (fill_phase m fillOk cfg a).1 =
        fillStatsStr false false (fillOk se) false (fillOk sa) := by
  intro m fillOk cfg a se sa hI hN hM hE hse hO hsa
  have hseb : (se == "") = false := by simpa using hse
  have hsab : (sa == "") = false := by simpa using hsa
  rw [fill_phase]
  rw [hI, hN, hM, hE, hO]
  simp [optTruthy, hseb, hsab]

/-- Witness for C9 at a concrete mapping. -/
theorem c9_fill_independent_roles_witness :
    (fill_phase ⟨none, none, some "#e", none, some "#o", []⟩ (fun _ => true) cfgBase
      "odp").2 = [("#e", cfgBase.email), ("#o", "odp")] :=
  (c9_fill_independent_roles ⟨none, none, some "#e", none, some "#o", []⟩ (fun _ => true)
    cfgBase "odp" "#e" "#o" rfl rfl rfl rfl (by decide) rfl (by decide)).1

/-- Claim C10: the sent-status family is exactly the six statuses SENT,
SENT_TEMPLATE, SENT_EXTRACT, SENT_YEARS, SENT_LLM and SENT_UNCONFIRMED;
an unconfirmed submission consumes daily quota and excludes its url from
future runs, while dry, not-sent, skipped and error rows consume no
quota and do not mark the url as already sent. -/
theorem c10_sent_status_family :
    (SENT_STATUSES = ["SENT", "SENT_TEMPLATE", "SENT_EXTRACT", "SENT_YEARS", "SENT_LLM",
       "SENT_UNCONFIRMED"]) ∧
    (SENT_STATUSES.contains "DRY_FILLED" = false ∧ SENT_STATUSES.contains "NOT_SENT" = false ∧
     SENT_STATUSES.contains "SKIPPED_EXPIRED" = false ∧
     SENT_STATUSES.contains "SKIPPED_DAILY_LIMIT" = false) ∧
    (∀ msg : String, SENT_STATUSES.contains ("ERROR:" ++ msg) = false) ∧
    (∀ (today ts url : String) (art : Option String) (q a fs : String)
       (L : List (List String)),
      datePart ts = today →
      count_today_sent today (L ++ [mkRow ts url art q a "SENT_UNCONFIRMED" fs]) =
        count_today_sent today L + 1) ∧
    (∀ (today ts url : String) (art : Option String) (q a fs st : String)
       (L : List (List String)),
      SENT_STATUSES.contains st = false →
      count_today_sent today (L ++ [mkRow ts url art q a st fs]) =
        count_today_sent today L) ∧
    (∀ (ts url : String) (art : Option String) (q a fs : String) (L : List (List String)),
      (get_already_sent_urls (L ++ [mkRow ts url art q a "SENT_UNCONFIRMED" fs])).contains url =
        true) ∧
    (∀ (u : String) (L : List (List String)), countSentFor u L = 0 →
      (get_already_sent_urls L).contains u = false) := by
  refine ⟨rfl, by decide, ?_, ?_, ?_, ?_, ?_⟩
  · intro msg
    have hne : ∀ s : String, s ∈ SENT_STATUSES → ¬("ERROR:" ++ msg = s) := by
      intro s hs hEq
      have hd : ("ERROR:" ++ msg).data = s.data := congrArg String.data hEq
      rw [String.data_append] at hd
      have he : "ERROR:".data = ['E', 'R', 'R', 'O', 'R', ':'] := rfl
      rw [he] at hd
      fin_cases hs <;> simp_all
    cases hc : SENT_STATUSES.contains ("ERROR:" ++ msg) with
    | false => rfl
    | true =>
      obtain ⟨s, hs, hbeq⟩ := List.contains_iff_exists_mem_beq.mp hc
      exact (hne s hs (beq_iff_eq.mp hbeq)).elim
  · intro today ts url art q a fs L h
    have hm : "SENT_UNCONFIRMED" ∈ SENT_STATUSES := by decide
    rw [count_today_sent, count_today_sent, List.countP_append]
    simp [List.countP_cons, todaySentRow_mkRow, h, hm]
  · intro today ts url art q a fs st L h
    have hn : st ∉ SENT_STATUSES := by
      intro hmem
      have hct : SENT_STATUSES.contains st = true :=
        List.contains_iff_exists_mem_beq.mpr ⟨st, hmem, by simp⟩
      rw [h] at hct
      exact Bool.false_ne_true hct
    rw [count_today_sent, count_today_sent, List.countP_append]
    simp [List.countP_cons, todaySentRow_mkRow, hn]
  · intro ts url art q a fs L
    rw [already_sent_contains_iff]
    have hrow : isSentRowFor url (mkRow ts url art q a "SENT_UNCONFIRMED" fs) = true := by
      rw [isSentRowFor_mkRow]
      have hm : SENT_STATUSES.contains "SENT_UNCONFIRMED" = true := by decide
      rw [hm]
      simp
    rw [countSentFor, List.countP_append]
    have : List.countP (isSentRowFor url) [mkRow ts url art q a "SENT_UNCONFIRMED" fs] = 1 := by
      simp [List.countP_cons, hrow]
    omega
  · intro u L h
    cases hc : (get_already_sent_urls L).contains u with
    | false => rfl
    | true =>
      have := (already_sent_contains_iff u L).mp hc
      omega

/-- Witness for C10 on a concrete ledger: an unconfirmed submission row
raises the daily count by one. -/
theorem c10_sent_status_family_witness :
    count_today_sent "2026-10-12"
      ([] ++ [mkRow "2026-10-12T09:00:00+02:00" "u" none "q" "a" "SENT_UNCONFIRMED" ""]) =
      count_today_sent "2026-10-12" [] + 1 :=
  c10_sent_status_family.2.2.2.1 "2026-10-12" "2026-10-12T09:00:00+02:00" "u" none "q" "a" ""
    [] (by decide)

lemma toFieldRec_sel (c : Control) : (toFieldRec c).sel = c.sel := rfl

lemma scanStep_imie_eq (st : ScanOut) (c : Control) :
    (scanStep st c).imie =
      if ctrlPasses c then
        (if st.imie.isNone && passImie c then some c.sel else st.imie)
      else st.imie := by
  rw [scanStep, passImie]
  by_cases h : ctrlPasses c
  · rw [if_pos h, if_pos h]
    simp only [apply_ite ScanOut.imie, ite_self, toFieldRec_sel]
  · rw [if_neg h, if_neg h]

lemma scanStep_nazwisko_eq (st : ScanOut) (c : Control) :
    (scanStep st c).nazwisko =
      if ctrlPasses c then
        (if st.nazwisko.isNone && passNazw c then some c.sel else st.nazwisko)
      else st.nazwisko := by
  rw [scanStep, passNazw]
  by_cases h : ctrlPasses c
  · rw [if_pos h, if_pos h]
    simp only [apply_ite ScanOut.nazwisko, ite_self, toFieldRec_sel]
  · rw [if_neg h, if_neg h]

lemma scanStep_miasto_eq (st : ScanOut) (c : Control) :
    (scanStep st c).miasto =
      if ctrlPasses c then
        (if st.miasto.isNone && passMiasto c then some c.sel else st.miasto)
      else st.miasto := by
  rw [scanStep, passMiasto]
  by_cases h : ctrlPasses c
  · rw [if_pos h, if_pos h]
    simp only [apply_ite ScanOut.miasto, ite_self, toFieldRec_sel]
  · rw [if_neg h, if_neg h]

lemma scanStep_email_eq (st : ScanOut) (c : Control) :
    (scanStep st c).email =
      if ctrlPasses c then
        (if st.email.isNone && passEmail c then some c.sel else st.email)
      else st.email := by
  rw [scanStep, passEmail]
  by_cases h : ctrlPasses c
  · rw [if_pos h, if_pos h]
    simp only [apply_ite ScanOut.email, ite_self, toFieldRec_sel]
    cases he : st.email with
    | some v => simp
    | none =>
      by_cases ht : ((toFieldRec c).type == "email") = true
      · simp [ht, toFieldRec_sel]
      · simp only [Bool.not_eq_true] at ht
        simp [ht, toFieldRec_sel]
  · rw [if_neg h, if_neg h]

lemma scanStep_odp_eq (st : ScanOut) (c : Control) :
    (scanStep st c).odp =
      if ctrlPasses c then
        (if st.odp.isNone && passOdp c then some c.sel else st.odp)
      else st.odp := by
  rw [scanStep, passOdp]
  by_cases h : ctrlPasses c
  · rw [if_pos h, if_pos h]
    simp only [apply_ite ScanOut.odp, ite_self, toFieldRec_sel]
    cases he : st.odp with
    | some v => simp
    | none =>
      by_cases ht : ((toFieldRec c).tag == "textarea" || c.contenteditable) = true
      · simp [ht, toFieldRec_sel]
      · simp only [Bool.or_eq_true, not_or, Bool.not_eq_true] at ht
        simp [ht.1, ht.2, toFieldRec_sel]
  · rw [if_neg h, if_neg h]

lemma scanStep_all_eq (st : ScanOut) (c : Control) :
    (scanStep st c).all = if ctrlPasses c then st.all ++ [toFieldRec c] else st.all := by
  rw [scanStep]
  by_cases h : ctrlPasses c
  · rw [if_pos h, if_pos h]
    simp only [apply_ite ScanOut.all, ite_self]
  · rw [if_neg h, if_neg h]

lemma foldl_scanStep_field (proj : ScanOut → Option String) (P : Control → Bool)
    (hstep : ∀ st c, proj (scanStep st c) =
      if ctrlPasses c then (if (proj st).isNone && P c then some c.sel else proj st)
      else proj st) :
    ∀ (cs : List Control) (st : ScanOut),
      proj (cs.foldl scanStep st) =
        (match proj st with
         | some s => some s
         | none => ((cs.filter ctrlPasses).find? P).map Control.sel) := by
  intro cs
  induction cs with
  | nil =>
    intro st
    cases hps : proj st <;> simp [hps]
  | cons c rest ih =>
    intro st
    rw [List.foldl_cons, ih, hstep]
    by_cases hp : ctrlPasses c
    · rw [if_pos hp, List.filter_cons_of_pos hp]
      cases hps : proj st with
      | some v => simp
      | none =>
        by_cases hP : P c = true
        · simp [hP, List.find?_cons_of_pos]
        · simp only [Bool.not_eq_true] at hP
          simp [hP, List.find?_cons_of_neg]
    · rw [if_neg hp, List.filter_cons_of_neg hp]

lemma foldl_scanStep_all :
    ∀ (cs : List Control) (st : ScanOut),
      (cs.foldl scanStep st).all = st.all ++ (cs.filter ctrlPasses).map toFieldRec := by
  intro cs
  induction cs with
  | nil => intro st; simp
  | cons c rest ih =>
    intro st
    rw [List.foldl_cons, ih, scanStep_all_eq]
    by_cases hp : ctrlPasses c <;> simp [hp, List.filter_cons, List.append_assoc]

set_option maxHeartbeats 1000000 in
lemma scanResidual_imie (O : ScanOut) :
    (scanResidual O).imie =
      (match O.imie with
       | some s => some s
       | none => ((O.all.filter isTextRec).head?).map FieldRec.sel) := by
  rcases O with ⟨i, n, e, m, o, al⟩
  cases i <;> cases n <;> cases e <;> cases o <;> dsimp only [scanResidual] <;>
    (repeat' split) <;> simp_all [List.isEmpty_iff, -List.filter_eq_nil_iff]

set_option maxHeartbeats 1000000 in
lemma scanResidual_nazwisko (O : ScanOut) :
    (scanResidual O).nazwisko =
      (match O.nazwisko with
       | some s => some s
       | none => ((O.all.filter isTextRec)[1]?).map FieldRec.sel) := by
  rcases O with ⟨i, n, e, m, o, al⟩
  cases i <;> cases n <;> cases e <;> cases o <;> dsimp only [scanResidual] <;>
    (repeat' split) <;> simp_all [List.isEmpty_iff, -List.filter_eq_nil_iff] <;>
    (first
      | (rw [List.getElem?_eq_none (by omega)]; rfl)
      | (rw [List.find?_eq_none.mpr (by simp_all)]; rfl))

set_option maxHeartbeats 1000000 in
lemma scanResidual_email (O : ScanOut) :
    (scanResidual O).email =
      (match O.email with
       | some s => some s
       | none => (O.all.find? (fun r => r.type == "email")).map FieldRec.sel) := by
  rcases O with ⟨i, n, e, m, o, al⟩
  cases i <;> cases n <;> cases e <;> cases o <;> dsimp only [scanResidual] <;>
    (repeat' split) <;> simp_all [List.isEmpty_iff, -List.filter_eq_nil_iff] <;>
    (first
      | (rw [List.getElem?_eq_none (by omega)]; rfl)
      | (rw [List.find?_eq_none.mpr (by simp_all)]; rfl))

set_option maxHeartbeats 1000000 in
lemma scanResidual_odp (O : ScanOut) :
    (scanResidual O).odp =
      (match O.odp with
       | some s => some s
       | none => (O.all.find? (fun r => r.tag == "textarea")).map FieldRec.sel) := by
  rcases O with ⟨i, n, e, m, o, al⟩
  cases i <;> cases n <;> cases e <;> cases o <;> dsimp only [scanResidual] <;>
    (repeat' split) <;> simp_all [List.isEmpty_iff, -List.filter_eq_nil_iff] <;>
    (first
      | (rw [List.getElem?_eq_none (by omega)]; rfl)
      | (rw [List.find?_eq_none.mpr (by simp_all)]; rfl))

set_option maxHeartbeats 1000000 in
lemma scanResidual_miasto (O : ScanOut) :
    (scanResidual O).miasto = O.miasto := by
  rcases O with ⟨i, n, e, m, o, al⟩
  cases i <;> cases n <;> cases e <;> cases o <;> dsimp only [scanResidual] <;>
    (repeat' split) <;> simp_all [List.isEmpty_iff, -List.filter_eq_nil_iff]

/-- Claim C8: in scan_fields the first control matching a role wins that
role; the residual heuristics fire only for roles still unassigned after
the type and keyword matching — first name and last name fall back to
the first and second text inputs in document order, email to a control
typed email, and the answer role to the first textarea. -/
theorem c8_field_mapper_rules :
    ∀ cs : List Control,
      (∀ c : Control, (cs.filter ctrlPasses).find? passImie = some c →
        (scanFields cs).imie = some c.sel) ∧
      (∀ c : Control, (cs.filter ctrlPasses).find? passNazw = some c →
        (scanFields cs).nazwisko = some c.sel) ∧
      (∀ c : Control, (cs.filter ctrlPasses).find? passMiasto = some c →
        (scanFields cs).miasto = some c.sel) ∧
      (∀ c : Control, (cs.filter ctrlPasses).find? passEmail = some c →
        (scanFields cs).email = some c.sel) ∧
      (∀ c : Control, (cs.filter ctrlPasses).find? passOdp = some c →
        (scanFields cs).odp = some c.sel) ∧
      ((cs.filter ctrlPasses).find? passImie = none →
        (scanFields cs).imie =
          ((((cs.filter ctrlPasses).map toFieldRec).filter isTextRec).head?).map FieldRec.sel) ∧
      ((cs.filter ctrlPasses).find? passNazw = none →
        (scanFields cs).nazwisko =
          ((((cs.filter ctrlPasses).map toFieldRec).filter isTextRec)[1]?).map FieldRec.sel) ∧
      ((cs.filter ctrlPasses).find? passEmail = none →
        (scanFields cs).email =
          (((cs.filter ctrlPasses).map toFieldRec).find? (fun r => r.type == "email")).map
            FieldRec.sel) ∧
      ((cs.filter ctrlPasses).find? passOdp = none →
        (scanFields cs).odp =
          (((cs.filter ctrlPasses).map toFieldRec).find? (fun r => r.tag == "textarea")).map
            FieldRec.sel) := by
  intro cs
  have hI := foldl_scanStep_field ScanOut.imie passImie scanStep_imie_eq cs emptyScan
  have hN := foldl_scanStep_field ScanOut.nazwisko passNazw scanStep_nazwisko_eq cs emptyScan
  have hM := foldl_scanStep_field ScanOut.miasto passMiasto scanStep_miasto_eq cs emptyScan
  have hE := foldl_scanStep_field ScanOut.email passEmail scanStep_email_eq cs emptyScan
  have hO := foldl_scanStep_field ScanOut.odp passOdp scanStep_odp_eq cs emptyScan
  have hA := foldl_scanStep_all cs emptyScan
  have e1 : emptyScan.imie = none := rfl
  have e2 : emptyScan.nazwisko = none := rfl
  have e3 : emptyScan.miasto = none := rfl
  have e4 : emptyScan.email = none := rfl
  have e5 : emptyScan.odp = none := rfl
  have e6 : emptyScan.all = [] := rfl
  simp only [e1, e2, e3, e4, e5, e6, List.nil_append] at hI hN hM hE hO hA
  refine ⟨?_, ?_, ?_, ?_, ?_, ?_, ?_, ?_, ?_⟩
  · intro c hc
    rw [scanFields, scanResidual_imie, hI, hc]
    rfl
  · intro c hc
    rw [scanFields, scanResidual_nazwisko, hN, hc]
    rfl
  · intro c hc
    rw [scanFields, scanResidual_miasto, hM, hc]
    rfl
  · intro c hc
    rw [scanFields, scanResidual_email, hE, hc]
    rfl
  · intro c hc
    rw [scanFields, scanResidual_odp, hO, hc]
    rfl
  · intro hc
    rw [scanFields, scanResidual_imie, hI, hc, hA]
    rfl
  · intro hc
    rw [scanFields, scanResidual_nazwisko, hN, hc, hA]
    rfl
  · intro hc
    rw [scanFields, scanResidual_email, hE, hc, hA]
    rfl
  · intro hc
    rw [scanFields, scanResidual_odp, hO, hc, hA]
    rfl

/-- Witness for C8 on the demonstration controls: no keyword matches the
first-name role, so the residual heuristic assigns the first text
input. -/
theorem c8_field_mapper_rules_witness :
    (scanFields demoControls).imie = some "#a" :=
  (((c8_field_mapper_rules demoControls).2.2.2.2.2.1 (by decide)).trans (by decide))
